import Mathlib

/-!
Verification of the core data transformations of `app.py` (AWS SaaS
visibility toolbox): feed aggregation (`merge_prefixes`), the filter
predicates (`valid_region`, `valid_service` in both sequence and scalar
form), the degenerate-service filter (`filter_amazon`), the annotation
projector loop inside the `annotations` command, and the scope-tree
builder (`create_scopes`).

Modelling conventions:
* A Python dict built by `setdefault`/append is modelled as an association
  list (`List (String × List String)`) with `alistAppend` / `alistLookup`;
  insertion order of keys is preserved, exactly as CPython dicts do.
* The source field `ip_prefix` of a feed record is named `cidr` here.
* Python's `list.remove(x)` removes the first occurrence only; Lean's
  `List.erase` does the same.
* In the source, every aggregated tuple produced by `merge_prefixes` for
  the same CIDR holds a reference to ONE shared services list, and
  `filter_amazon` mutates that list in place.  We model the heap
  explicitly: the projector loop carries the services map as state, reads
  the current list through the tuple's key, and writes the updated list
  back (`smapUpdate`).  The regions lists are never mutated, so they can
  be read directly from the tuple.
* A remote scope-creation call is modelled by a collaborator
  `post : ScopeRequest → Option String`: `some id` is a response from
  which `resp.json()["id"]` can be extracted; `none` is a failing call
  (non-2xx / no `id` field), on which that extraction raises.  The
  component tier never inspects its response, so its `post` result is
  discarded, matching `create_component_scope`.
-/

namespace AwsApp

/-- One record of the AWS ip-ranges feed: `{ip_prefix, region, service}`.
The field `cidr` embeds the source's `ip_prefix`. -/
structure RawPrefixRecord where
  cidr : String
  region : String
  service : String
deriving DecidableEq, Repr

/-- The parsed feed: the `payload['prefixes']` list, in feed order. -/
abbrev Payload := List RawPrefixRecord

/-- Python `m.setdefault(k, []).append(v)` on a dict of lists:
append `v` to the entry of `k`, creating it at the end if absent. -/
def alistAppend (m : List (String × List String)) (k : String) (v : String) :
    List (String × List String) :=
  match m with
  | [] => [(k, [v])]
  | (k', vs) :: rest =>
    if k' = k then (k', vs ++ [v]) :: rest
    else (k', vs) :: alistAppend rest k v

/-- Dict lookup `m[k]`; totalised to `[]` on a missing key (the source
only ever looks up keys that are present). -/
def alistLookup (m : List (String × List String)) (k : String) : List String :=
  match m with
  | [] => []
  | (k', vs) :: rest => if k' = k then vs else alistLookup rest k

/-- Overwrite the entry of `k` with `v` (models in-place mutation of the
shared list object the entry points to). -/
def smapUpdate (m : List (String × List String)) (k : String)
    (v : List String) : List (String × List String) :=
  match m with
  | [] => []
  | (k', vs) :: rest =>
    if k' = k then (k', v) :: rest else (k', vs) :: smapUpdate rest k v

/-- First pass of `merge_prefixes`: the `regions` accumulator dict. -/
def buildRegions (payload : Payload) : List (String × List String) :=
  payload.foldl (fun m p => alistAppend m p.cidr p.region) []

/-- First pass of `merge_prefixes`: the `services` accumulator dict. -/
def buildServices (payload : Payload) : List (String × List String) :=
  payload.foldl (fun m p => alistAppend m p.cidr p.service) []

/-- Source `merge_prefixes(payload)`: one tuple `(ip_prefix, regions, services)`
per raw record occurrence, each carrying the fully accumulated region and
service lists of its CIDR. -/
def merge_prefixes (payload : Payload) :
    List (String × List String × List String) :=
  let regions := buildRegions payload
  let services := buildServices payload
  payload.map (fun p => (p.cidr, alistLookup regions p.cidr,
    alistLookup services p.cidr))

/-- Source `filter_amazon(services)`: drop one occurrence of the literal
`"AMAZON"` when the list has more than one element and contains it. -/
def filter_amazon (services : List String) : List String :=
  if services.length > 1 && services.contains "AMAZON" then
    services.erase "AMAZON"
  else services

/-- Source `valid_region(_regions)`, the closure of the `annotations` command:
`regions` is the `--region` policy list.  An empty policy admits
everything; otherwise some policy region must occur in `_regions`.
(The Python function falls off the end returning `None`, which is falsy.) -/
def valid_region (regions _regions : List String) : Bool :=
  if regions.isEmpty then true
  else regions.any (fun region => _regions.contains region)

/-- Source `valid_service(_services)`, the closure of the `annotations` command:
an exclusion match wins, then an empty include list admits, then some
include must occur in `_services` (fall-off returns falsy `None`). -/
def valid_service (includes excludes _services : List String) : Bool :=
  if excludes.any (fun exclude => _services.contains exclude) then false
  else if includes.isEmpty then true
  else includes.any (fun inc => _services.contains inc)

/-- An emitted row `(ip_prefix, 'AWS', region, component)`. -/
abbrev Row := String × String × String × String

/-- The projector loop of `annotations`, iterating over the tuples of
`merge_prefixes`.  `servicesMap` is the heap: each tuple's services list
is an alias of the map entry of its CIDR, so the loop reads the CURRENT
list there, and `filter_amazon`'s in-place removal is written back with
`smapUpdate`.  The regions lists are never mutated, so the tuple's own
copy is read.  `[0]` indexing is totalised with `headD ""` (all reachable
lists are non-empty). -/
def projectorLoop (includes excludes regions : List String)
    (servicesMap : List (String × List String))
    (merged : List (String × List String × List String)) : List Row :=
  match merged with
  | [] => []
  | (ip, _regions, _) :: rest =>
    let _services := alistLookup servicesMap ip
    if valid_region regions _regions then
      if valid_service includes excludes _services then
        let s' := filter_amazon _services
        (ip, "AWS", _regions.headD "", s'.headD "") ::
          projectorLoop includes excludes regions
            (smapUpdate servicesMap ip s') rest
      else projectorLoop includes excludes regions servicesMap rest
    else projectorLoop includes excludes regions servicesMap rest

/-- The `filtered` list built by the `annotations` command:
`merge_prefixes` followed by the projector loop, under the policy
`(includes, excludes, regions)`. -/
def filtered_rows (includes excludes regions : List String)
    (payload : Payload) : List Row :=
  projectorLoop includes excludes regions (buildServices payload)
    (merge_prefixes payload)

/-- Source `valid_region(_region)`, the scalar closure of the `create_scopes` command:
scalar equality against the `--region` policy list (fall-off is falsy). -/
def valid_region_one (regions : List String) (_region : String) : Bool :=
  if regions.isEmpty then true
  else regions.contains _region

/-- Source `valid_service(_service)`, the scalar closure of the `create_scopes` command:
scalar equality; an exclusion match wins, an empty include list admits. -/
def valid_service_one (includes excludes : List String)
    (_service : String) : Bool :=
  if excludes.contains _service then false
  else if includes.isEmpty then true
  else includes.contains _service

/-- The JSON body of one `POST /app_scopes` call: parent scope id, short
name, and the `short_query` field/value pair. -/
structure ScopeRequest where
  parent : String
  short_name : String
  field : String
  value : String
deriving DecidableEq, Repr

/-- The request built by `create_service_scope`. -/
def serviceScopeRequest (root_scope_id : String) : ScopeRequest :=
  ⟨root_scope_id, "AWS", "user_SaaS Provider", "AWS"⟩

/-- The request built by `create_region_scope`. -/
def regionScopeRequest (service_scope_id region : String) : ScopeRequest :=
  ⟨service_scope_id, region, "user_SaaS Region", region⟩

/-- The request built by `create_component_scope`. -/
def componentScopeRequest (region_scope_id service : String) : ScopeRequest :=
  ⟨region_scope_id, service, "user_SaaS Component", service⟩

/-- The region/component loop of `create_scopes` over the items of the
region→services index.  For an allowed region, `create_region_scope` is
called and `resp.json()["id"]` extracted: a failing call (`post = none`)
raises there, which the source does not catch, so the run stops — the
failing request is the last one issued and the `Bool` flag is `false`.
For each allowed service, `create_component_scope` is called and its
response discarded unread, so those calls never stop the run.  Returns
the requests issued, in order, and whether the loop ran to completion. -/
def regionsLoop (post : ScopeRequest → Option String)
    (includes excludes regions : List String) (service_scope_id : String)
    (index : List (String × List String)) : List ScopeRequest × Bool :=
  match index with
  | [] => ([], true)
  | (region, services) :: rest =>
    if valid_region_one regions region then
      let rreq := regionScopeRequest service_scope_id region
      match post rreq with
      | none => ([rreq], false)
      | some region_scope_id =>
        let creqs := (services.filter
            (valid_service_one includes excludes)).map
          (componentScopeRequest region_scope_id)
        let tail := regionsLoop post includes excludes regions
          service_scope_id rest
        (rreq :: creqs ++ tail.1, tail.2)
    else regionsLoop post includes excludes regions service_scope_id rest

/-- The `create_scopes` command body after the feed has been indexed:
`create_service_scope` (whose `resp.json()["id"]` also raises on a
failing call), then the region/component loop. -/
def create_scopes_run (post : ScopeRequest → Option String)
    (includes excludes regions : List String) (root_scope_id : String)
    (index : List (String × List String)) : List ScopeRequest × Bool :=
  let req0 := serviceScopeRequest root_scope_id
  match post req0 with
  | none => ([req0], false)
  | some service_scope_id =>
    let tail := regionsLoop post includes excludes regions
      service_scope_id index
    (req0 :: tail.1, tail.2)

/-! ### Helper lemmas about the accumulator dicts -/

theorem alistLookup_alistAppend (m : List (String × List String))
    (k k' v : String) :
    alistLookup (alistAppend m k v) k' =
      alistLookup m k' ++ (if k = k' then [v] else []) := by
  induction m with
  | nil =>
    by_cases h : k = k' <;> simp [alistAppend, alistLookup, h]
  | cons hd tl ih =>
    obtain ⟨a, vs⟩ := hd
    by_cases hak : a = k
    · subst hak
      by_cases hk' : a = k' <;> simp [alistAppend, alistLookup, hk']
    · by_cases hak' : a = k'
      · subst hak'
        have hkk' : ¬ k = a := fun h => hak h.symm
        simp [alistAppend, alistLookup, hak, hkk']
      · simp [alistAppend, alistLookup, hak, hak', ih]

theorem alistLookup_foldl_alistAppend (f : RawPrefixRecord → String)
    (l : Payload) (m : List (String × List String)) (k : String) :
    alistLookup (l.foldl (fun acc p => alistAppend acc p.cidr (f p)) m) k =
      alistLookup m k ++ (l.filter (fun p => p.cidr = k)).map f := by
  induction l generalizing m with
  | nil => simp
  | cons p rest ih =>
    rw [List.foldl_cons, ih, alistLookup_alistAppend]
    by_cases h : p.cidr = k <;> simp [h, List.filter_cons]

theorem buildRegions_lookup (payload : Payload) (k : String) :
    alistLookup (buildRegions payload) k =
      (payload.filter (fun p => p.cidr = k)).map (fun p => p.region) := by
  have h := alistLookup_foldl_alistAppend (fun p => p.region) payload [] k
  simpa [buildRegions, alistLookup] using h

theorem buildServices_lookup (payload : Payload) (k : String) :
    alistLookup (buildServices payload) k =
      (payload.filter (fun p => p.cidr = k)).map (fun p => p.service) := by
  have h := alistLookup_foldl_alistAppend (fun p => p.service) payload [] k
  simpa [buildServices, alistLookup] using h

/-- Follows the spec's words: the complete region list accumulated over
all feed records sharing a CIDR, in feed order. -/
def specRegionsFor (payload : Payload) (ip : String) : List String :=
  (payload.filter (fun p => p.cidr = ip)).map (fun p => p.region)

/-- Follows the spec's words: the complete service list accumulated over
all feed records sharing a CIDR, in feed order. -/
def specServicesFor (payload : Payload) (ip : String) : List String :=
  (payload.filter (fun p => p.cidr = ip)).map (fun p => p.service)

/-- C6: for every feed, `merge_prefixes` returns one tuple per raw record
occurrence (same length as the input, duplicates preserved), and the
tuple of each occurrence carries the complete region list and complete
service list of its prefix, in first-seen feed order. -/
theorem merge_one_tuple_per_occurrence_with_complete_lists
    (payload : Payload) :
    (merge_prefixes payload).length = payload.length ∧
    merge_prefixes payload = payload.map (fun p =>
      (p.cidr, specRegionsFor payload p.cidr,
        specServicesFor payload p.cidr)) := by
  constructor
  · simp [merge_prefixes]
  · simp only [merge_prefixes, specRegionsFor, specServicesFor]
    exact List.map_congr_left fun p _ => by
      rw [buildRegions_lookup, buildServices_lookup]

/-- C7: every tuple produced by `merge_prefixes` has region and service
lists of equal length, that common length equals the number of feed
records carrying the tuple's prefix, and it is at least 1. -/
theorem aggregated_lists_equal_length_and_count (payload : Payload)
    (t : String × List String × List String)
    (ht : t ∈ merge_prefixes payload) :
    t.2.1.length = t.2.2.length ∧
    t.2.1.length = (payload.filter (fun p => p.cidr = t.1)).length ∧
    1 ≤ t.2.1.length := by
  simp only [merge_prefixes, List.mem_map] at ht
  obtain ⟨p, hp, rfl⟩ := ht
  simp only [buildRegions_lookup, buildServices_lookup, List.length_map]
  refine ⟨by simp, by simp, ?_⟩
  have hmem : p ∈ payload.filter (fun q => q.cidr = p.cidr) :=
    List.mem_filter.mpr ⟨hp, by simp⟩
  simpa [Nat.succ_le_iff, List.length_pos] using
    List.ne_nil_of_mem hmem

/-- Witness for C7 at a concrete feed and tuple. -/
theorem aggregated_lists_equal_length_and_count_witness :
    ("a", ["r1", "r3"], ["s1", "s3"]) ∈
      merge_prefixes [⟨"a", "r1", "s1"⟩, ⟨"b", "r2", "s2"⟩,
        ⟨"a", "r3", "s3"⟩] ∧
    (["r1", "r3"] : List String).length = (["s1", "s3"] : List String).length ∧
    (["r1", "r3"] : List String).length =
      (([⟨"a", "r1", "s1"⟩, ⟨"b", "r2", "s2"⟩, ⟨"a", "r3", "s3"⟩] :
        Payload).filter (fun p => p.cidr = "a")).length ∧
    1 ≤ (["r1", "r3"] : List String).length :=
  ⟨by decide, aggregated_lists_equal_length_and_count
    [⟨"a", "r1", "s1"⟩, ⟨"b", "r2", "s2"⟩, ⟨"a", "r3", "s3"⟩]
    ("a", ["r1", "r3"], ["s1", "s3"]) (by decide)⟩

/-- The scenario-1 feed: two records for `3.5.0.0/16` in `us-east-1`,
service labels `AMAZON` and `S3`. -/
def feedScenario1 : Payload :=
  [⟨"3.5.0.0/16", "us-east-1", "AMAZON"⟩, ⟨"3.5.0.0/16", "us-east-1", "S3"⟩]

/-- C1 counterexample: on the scenario-1 feed with empty policy, the
pipeline does NOT produce exactly one row — `merge_prefixes` emits one
tuple per raw record occurrence, so the duplicate tuple yields a second
(identical) row. -/
theorem scenario1_not_exactly_one_row :
    ¬ ((filtered_rows [] [] [] feedScenario1).length = 1) := by decide

/-- C1 amended: on the scenario-1 feed with empty policy, the pipeline
produces exactly TWO rows, both equal to
`("3.5.0.0/16", "AWS", "us-east-1", "S3")`. -/
theorem scenario1_two_identical_rows :
    filtered_rows [] [] [] feedScenario1 =
      [("3.5.0.0/16", "AWS", "us-east-1", "S3"),
       ("3.5.0.0/16", "AWS", "us-east-1", "S3")] := by decide

/-- The aliasing feed of C3: three records for one prefix and one region
with services `AMAZON`, `AMAZON`, `S3` in feed order. -/
def feedAliasing : Payload :=
  [⟨"p", "r", "AMAZON"⟩, ⟨"p", "r", "AMAZON"⟩, ⟨"p", "r", "S3"⟩]

/-- C3: because all three tuples alias one services list and
`filter_amazon` removes in place, the removal done at one occurrence is
seen at the later occurrences: the emitted components are
`AMAZON`, `S3`, `S3` — not `AMAZON`, `AMAZON`, `AMAZON`. -/
theorem shared_services_mutation_visible_in_later_rows :
    filtered_rows [] [] [] feedAliasing =
      [("p", "AWS", "r", "AMAZON"), ("p", "AWS", "r", "S3"),
        ("p", "AWS", "r", "S3")] ∧
    (filtered_rows [] [] [] feedAliasing).map (fun row => row.2.2.2) ≠
      ["AMAZON", "AMAZON", "AMAZON"] :=
  ⟨by decide, by decide⟩

/-- C4: `valid_service` returns false when some element of the services
sequence is excluded (exclude wins); otherwise true when the include
list is empty; otherwise true exactly when some element is included.
And on the scenario-1 feed with `excludes = ["S3"]`, zero rows are
produced. -/
theorem valid_service_contract_and_exclude_scenario
    (includes excludes services : List String) :
    (valid_service includes excludes services = true ↔
      ((∀ s ∈ services, s ∉ excludes) ∧
        (includes = [] ∨ ∃ s ∈ services, s ∈ includes))) ∧
    filtered_rows [] ["S3"] [] feedScenario1 = [] := by
  refine ⟨?_, by decide⟩
  unfold valid_service
  by_cases hex : excludes.any (fun exclude => services.contains exclude) = true
  · rw [if_pos hex]
    simp only [List.any_eq_true, List.elem_iff] at hex
    obtain ⟨e, he, hes⟩ := hex
    constructor
    · intro h
      exact absurd h (by simp)
    · rintro ⟨hall, -⟩
      exact absurd he (hall e hes)
  · rw [if_neg hex]
    have hall : ∀ s ∈ services, s ∉ excludes := by
      simp only [List.any_eq_true, List.elem_iff, not_exists] at hex
      intro s hs hse
      exact absurd ⟨hse, hs⟩ (hex s)
    by_cases hinc : includes.isEmpty = true
    · rw [if_pos hinc]
      simp only [List.isEmpty_iff] at hinc
      exact iff_of_true rfl ⟨hall, Or.inl hinc⟩
    · rw [if_neg hinc]
      simp only [List.isEmpty_iff] at hinc
      simp only [List.any_eq_true, List.elem_iff]
      constructor
      · rintro ⟨i, hi, his⟩
        exact ⟨hall, Or.inr ⟨i, his, hi⟩⟩
      · rintro ⟨-, h0 | ⟨s, hs, hsi⟩⟩
        · exact absurd h0 hinc
        · exact ⟨s, hsi, hs⟩

/-- C5: `filter_amazon` removes the literal `"AMAZON"` exactly when the
list has more than one element and contains it, removing only the first
occurrence; for `["AMAZON", "S3"]` the emitted component (head) is
`"S3"`, and for `["AMAZON"]` the guard skips removal and the head stays
`"AMAZON"`. -/
theorem filter_amazon_removes_one_occurrence (services : List String) :
    (filter_amazon services =
      if 1 < services.length ∧ "AMAZON" ∈ services then
        services.erase "AMAZON"
      else services) ∧
    filter_amazon ["AMAZON", "AMAZON", "S3"] = ["AMAZON", "S3"] ∧
    (filter_amazon ["AMAZON", "S3"]).headD "" = "S3" ∧
    (filter_amazon ["AMAZON"]).headD "" = "AMAZON" := by
  refine ⟨?_, by decide, by decide, by decide⟩
  have hb : (services.length > 1 && services.contains "AMAZON") = true ↔
      (1 < services.length ∧ "AMAZON" ∈ services) := by
    simp [List.elem_iff]
  unfold filter_amazon
  by_cases hc : 1 < services.length ∧ "AMAZON" ∈ services
  · rw [if_pos (hb.mpr hc), if_pos hc]
  · rw [if_neg (fun hh => hc (hb.mp hh)), if_neg hc]

/-- C8: `valid_region` holds exactly when the allowed-region policy is
empty or some element of the candidate sequence is an allowed region;
in particular an empty policy admits every candidate sequence. -/
theorem valid_region_contract (regions _regions : List String) :
    (valid_region regions _regions = true ↔
      (regions = [] ∨ ∃ r ∈ _regions, r ∈ regions)) ∧
    valid_region [] _regions = true := by
  refine ⟨?_, by simp [valid_region]⟩
  unfold valid_region
  by_cases h : regions.isEmpty = true
  · rw [if_pos h]
    simp only [List.isEmpty_iff] at h
    exact iff_of_true rfl (Or.inl h)
  · rw [if_neg h]
    simp only [List.isEmpty_iff] at h
    simp only [List.any_eq_true, List.elem_iff]
    constructor
    · rintro ⟨r, hr, hrin⟩
      exact Or.inr ⟨r, hrin, hr⟩
    · rintro (h0 | ⟨r, hrin, hr⟩)
      · exact absurd h0 h
      · exact ⟨r, hr, hrin⟩

/-- C9: `valid_service` is monotone in the exclude list — with the
include list and candidate services fixed, adding one more name to the
excludes can only turn a true verdict false, never a false one true. -/
theorem valid_service_monotone_in_excludes
    (includes excludes services : List String) (x : String)
    (h : valid_service includes (x :: excludes) services = true) :
    valid_service includes excludes services = true := by
  unfold valid_service at h ⊢
  by_cases hex : excludes.any (fun exclude => services.contains exclude) = true
  · have hx : (x :: excludes).any
        (fun exclude => services.contains exclude) = true := by
      simp only [List.any_cons, hex, Bool.or_true]
    rw [if_pos hx] at h
    exact absurd h (by simp)
  · rw [if_neg hex]
    have hexf : excludes.any (fun exclude => services.contains exclude)
        = false := Bool.eq_false_iff.mpr hex
    cases hcx : services.contains x with
    | true =>
      have hx : (x :: excludes).any
          (fun exclude => services.contains exclude) = true := by
        simp only [List.any_cons, hcx, Bool.true_or]
      rw [if_pos hx] at h
      exact absurd h (by simp)
    | false =>
      have hx : (x :: excludes).any
          (fun exclude => services.contains exclude) = false := by
        simp only [List.any_cons, hcx, hexf, Bool.or_false]
      have hne : ¬ ((x :: excludes).any
          (fun exclude => services.contains exclude) = true) := by
        rw [hx]
        exact Bool.false_ne_true
      rw [if_neg hne] at h
      exact h

/-- Witness for C9 at a concrete policy and services list. -/
theorem valid_service_monotone_in_excludes_witness :
    valid_service [] ["EC2"] ["S3"] = true ∧
    valid_service [] [] ["S3"] = true :=
  ⟨by decide, valid_service_monotone_in_excludes [] [] ["S3"] "EC2"
    (by decide)⟩

/-- A collaborator that fails (non-2xx, no extractable `id`) exactly on
the region-tier request for region `r1` and succeeds with scope id
`"id"` on every other call. -/
def postFailRegionR1 : ScopeRequest → Option String :=
  fun req =>
    if req.field = "user_SaaS Region" ∧ req.short_name = "r1" then none
    else some "id"

/-- A collaborator that fails on every component-tier request and
succeeds with scope id `"id"` on every other call. -/
def postFailComponents : ScopeRequest → Option String :=
  fun req => if req.field = "user_SaaS Component" then none else some "id"

/-- C2 counterexample: with two regions `r1`, `r2` in the index (no
policy restriction) and a collaborator whose region-tier call for `r1`
fails, the run ends at that call: the requests issued are only the
umbrella call and the failing `r1` call, `r2`'s region scope is never
requested, and the completion flag is `false` — the builder does NOT
continue with the next sibling region. -/
theorem region_failure_aborts_remaining_scopes :
    create_scopes_run postFailRegionR1 [] [] [] "root"
        [("r1", ["s1"]), ("r2", ["s2"])] =
      ([serviceScopeRequest "root", regionScopeRequest "id" "r1"],
        false) := by decide

/-- C2 amended: the two tiers fail differently and neither reports.  A
tier-2 (region) failure is uncaught — `resp.json()["id"]` raises — so it
aborts all remaining scope-creation calls of the run; a tier-3
(component) call's response is discarded unread, so a failing component
call is silently ignored and the builder continues with the remaining
calls. -/
theorem scope_failure_tier2_aborts_tier3_ignored :
    ((create_scopes_run postFailRegionR1 [] [] [] "root"
        [("r1", ["s1"]), ("r2", ["s2"])]).1.all
      (fun req => req.short_name ≠ "r2" ∧ req.short_name ≠ "s1")) = true ∧
    (create_scopes_run postFailRegionR1 [] [] [] "root"
        [("r1", ["s1"]), ("r2", ["s2"])]).2 = false ∧
    create_scopes_run postFailComponents [] [] [] "root"
        [("r1", ["s1"]), ("r2", ["s2"])] =
      ([serviceScopeRequest "root", regionScopeRequest "id" "r1",
        componentScopeRequest "id" "s1", regionScopeRequest "id" "r2",
        componentScopeRequest "id" "s2"], true) :=
  ⟨by decide, by decide, by decide⟩

/-- C10: with `allowedRegions = ["us-east-1"]` and the index
`us-east-1 ↦ [EC2], eu-west-1 ↦ [S3]` under an always-succeeding
collaborator, the builder issues exactly one region-tier call (for
`us-east-1`) and exactly one component-tier call (for `EC2`) besides the
umbrella call, and no request ever names `eu-west-1` or `S3`. -/
theorem scope_calls_only_for_allowed_names :
    create_scopes_run (fun _ => some "sid") [] [] ["us-east-1"] "root"
        [("us-east-1", ["EC2"]), ("eu-west-1", ["S3"])] =
      ([serviceScopeRequest "root", regionScopeRequest "sid" "us-east-1",
        componentScopeRequest "sid" "EC2"], true) ∧
    ((create_scopes_run (fun _ => some "sid") [] [] ["us-east-1"] "root"
        [("us-east-1", ["EC2"]), ("eu-west-1", ["S3"])]).1.all
      (fun req => req.short_name ≠ "eu-west-1" ∧ req.short_name ≠ "S3"
        ∧ req.value ≠ "eu-west-1" ∧ req.value ≠ "S3")) = true :=
  ⟨by decide, by decide⟩

end AwsApp
